import Mathlib

/-
Verification of the iterative demand-response engine of the
Switch-USA-gasnetwork repository.

Shallow embedding of:
  - gas_constant_elasticity_demand_system_2sectors.py (calibrate and bid),
  - gas_iterative_demand_response_2sectors.py (add_bids, pre_iterate,
    revenue_imbalance, find_flat_prices, the DR_Convex_Bid_Weight and
    DR_Flat_Bid_Weight constraints and the balance reconstruction).

Numbers are modelled as rationals.  The floating power operator a ** b of
numpy is kept as an explicit function parameter pw, since the claims under
study concern the algebraic combination of its values, not its numerics.
The demand module is a plugin in the source (demand_module.bid), so the
functions that call it take the bid function as a parameter.
-/

/-- Gas market zones, opaque identifiers in the source. -/
abbrev Zone := ℕ

/-- Timeseries, opaque identifiers in the source. -/
abbrev TS := ℕ

/-- Planning periods. -/
abbrev Period := ℕ

/-- The two demand sectors of the model, m.DEMAND_SECTORS = [EI, RC]. -/
inductive Sector
| EI
| RC
deriving DecidableEq, Repr

/-- Sector elasticities from the elasticities dict in bid():
EI (industrial) 0.05 and RC (residential) 0.01. -/
def elasticities : Sector → ℚ
| Sector.EI => 5 / 100
| Sector.RC => 1 / 100

/-- State stored by calibrate(): base loads and base prices per
(zone, timeseries, sector).  The source stores singleton vectors, modelled
here as the scalars they hold. -/
structure CalibState where
  base_load_dict : Zone → TS → Sector → ℚ
  base_price_dict : Zone → TS → Sector → ℚ

/-- Embedding of bid() from gas_constant_elasticity_demand_system_2sectors.py.
pw is the floating power operator.  Returns the pair (demand, wtp). -/
def bid (pw : ℚ → ℚ → ℚ) (st : CalibState) (gas_zone : Zone) (time_series : TS)
    (sector_price : ℚ) (sector : Sector) : ℚ × ℚ :=
  let sector_elasticity := elasticities sector
  let p := max 1 sector_price
  let bl := st.base_load_dict gas_zone time_series sector
  let bp := st.base_price_dict gas_zone time_series sector
  let elastic_load := bl * pw (p / bp) (-sector_elasticity)
  let elastic_load_cs_diff :=
    (1 - pw (p / bp) (1 - sector_elasticity)) * bp * bl / (1 - sector_elasticity)
  let base_elastic_load_paid := bp * bl
  let elastic_load_paid := p * elastic_load
  let elastic_load_paid_diff := elastic_load_paid - base_elastic_load_paid
  (elastic_load, elastic_load_cs_diff + elastic_load_paid_diff)

/-- Claim C3: for every calibrated (zone, timeseries, sector) with base load
bl and base price bp, and every offered price p, bid returns
quantity = bl * (p1 / bp) ** (-e) and
wtp = bp * bl / (1 - e) * (1 - (p1 / bp) ** (1 - e)) + (p1 * quantity - bp * bl),
where p1 is the offered price floored at 1.0 and the elasticity e is
0.05 for sector EI and 0.01 for sector RC. -/
theorem bid_constant_elasticity_formula :
    (∀ (pw : ℚ → ℚ → ℚ) (st : CalibState) (z : Zone) (ts : TS) (p : ℚ) (s : Sector),
      bid pw st z ts p s =
        (st.base_load_dict z ts s *
            pw (max 1 p / st.base_price_dict z ts s) (-(elasticities s)),
         st.base_price_dict z ts s * st.base_load_dict z ts s / (1 - elasticities s) *
            (1 - pw (max 1 p / st.base_price_dict z ts s) (1 - elasticities s)) +
          (max 1 p *
              (st.base_load_dict z ts s *
                pw (max 1 p / st.base_price_dict z ts s) (-(elasticities s))) -
            st.base_price_dict z ts s * st.base_load_dict z ts s)))
    ∧ elasticities Sector.EI = 5 / 100 ∧ elasticities Sector.RC = 1 / 100 := by
  refine ⟨fun pw st z ts p s => ?_, rfl, rfl⟩
  unfold bid
  dsimp only
  congr 1
  ring

/-- A bid tuple (z, ts, sector, prices, demand, wtp) as passed to add_bids.
In this module every price list holds one price per timeseries, so prices is
the scalar it holds. -/
structure BidTuple where
  z : Zone
  ts : TS
  sector : Sector
  prices : ℚ
  demand : ℚ
  wtp : ℚ
deriving DecidableEq

/-- The mutable bid data of the model: the ordered id set DR_BID_LIST and the
mutable Params dr_bid, dr_price and dr_bid_benefit, modelled as total maps. -/
structure BidStore where
  DR_BID_LIST : List ℕ
  dr_bid : ℕ → Zone → TS → Sector → ℚ
  dr_price : ℕ → Zone → TS → Sector → ℚ
  dr_bid_benefit : ℕ → Zone → TS → Sector → ℚ

/-- New bid id chosen by add_bids: 1 when the list is empty, else the maximal
stored id plus one. -/
def newBidId (m : BidStore) : ℕ :=
  if m.DR_BID_LIST = [] then 1 else m.DR_BID_LIST.foldl max 0 + 1

/-- The non_convex_pairs list built by add_bids: every pair of a new bid tuple
and a prior bid id whose stored benefit and demand dominate the new bid at the
new price by more than the 0.000001 tolerance. -/
def non_convex_pairs (m : BidStore) (bids : List BidTuple) : List (BidTuple × ℕ) :=
  bids.flatMap (fun t =>
    (m.DR_BID_LIST.filter (fun prior_b =>
      decide (m.dr_bid_benefit prior_b t.z t.ts t.sector
                - m.dr_bid prior_b t.z t.ts t.sector * t.prices
              > t.wtp - t.demand * t.prices + 1 / 1000000))).map
      (fun prior_b => (t, prior_b)))

/-- One assignment step of the parameter-update loop of add_bids. -/
def setParams (b : ℕ) (m : BidStore) (t : BidTuple) : BidStore :=
  { m with
    dr_bid_benefit := fun b2 z ts ds =>
      if b2 = b ∧ z = t.z ∧ ts = t.ts ∧ ds = t.sector then t.wtp
      else m.dr_bid_benefit b2 z ts ds
    dr_bid := fun b2 z ts ds =>
      if b2 = b ∧ z = t.z ∧ ts = t.ts ∧ ds = t.sector then t.demand
      else m.dr_bid b2 z ts ds
    dr_price := fun b2 z ts ds =>
      if b2 = b ∧ z = t.z ∧ ts = t.ts ∧ ds = t.sector then t.prices
      else m.dr_price b2 z ts ds }

/-- Embedding of add_bids: compute the non-convex pairs first; when any exist,
raise (second component some, store returned unchanged, as the Python raise
happens before any mutation); otherwise append the new id and record the bid
data. -/
def add_bids (m : BidStore) (bids : List BidTuple) :
    BidStore × Option (List (BidTuple × ℕ)) :=
  let b := newBidId m
  let ncp := non_convex_pairs m bids
  if ncp = [] then
    (bids.foldl (setParams b) { m with DR_BID_LIST := m.DR_BID_LIST ++ [b] }, none)
  else (m, some ncp)

/-- The bid store before any bid is received. -/
def emptyBidStore : BidStore :=
  ⟨[], fun _ _ _ _ => 0, fun _ _ _ _ => 0, fun _ _ _ _ => 0⟩

/-- The store after accepting a first bid with price 10, quantity 5, wtp 0. -/
def storeAfterFirstBid : BidStore :=
  (add_bids emptyBidStore [⟨0, 0, Sector.RC, 10, 5, 0⟩]).1

/-- Claim C1: add_bids raises exactly when some new bid tuple is dominated by
a stored prior bid at the new price beyond the 1e-6 tolerance; after a bid
(price 10, quantity 5, wtp 0) is accepted, a bid (price 10, quantity 5,
wtp -1) for the same key raises; and a raising call leaves the store
unchanged, the check running before acceptance. -/
theorem add_bids_nonconvex_reject :
    (∀ (m : BidStore) (bids : List BidTuple),
      (add_bids m bids).2.isSome = true ↔
        ∃ t ∈ bids, ∃ k ∈ m.DR_BID_LIST,
          m.dr_bid_benefit k t.z t.ts t.sector
              - m.dr_bid k t.z t.ts t.sector * t.prices
            > t.wtp - t.demand * t.prices + 1 / 1000000)
    ∧ (add_bids storeAfterFirstBid [⟨0, 0, Sector.RC, 10, 5, -1⟩]).2.isSome = true
    ∧ (∀ (m : BidStore) (bids : List BidTuple),
        (add_bids m bids).2.isSome = true → (add_bids m bids).1 = m) := by
  have hsome : ∀ (m : BidStore) (bids : List BidTuple),
      (add_bids m bids).2.isSome = true ↔ non_convex_pairs m bids ≠ [] := by
    intro m bids
    unfold add_bids
    by_cases hc : non_convex_pairs m bids = [] <;> simp [hc]
  have ha : ∀ (m : BidStore) (bids : List BidTuple),
      (add_bids m bids).2.isSome = true ↔
        ∃ t ∈ bids, ∃ k ∈ m.DR_BID_LIST,
          m.dr_bid_benefit k t.z t.ts t.sector
              - m.dr_bid k t.z t.ts t.sector * t.prices
            > t.wtp - t.demand * t.prices + 1 / 1000000 := by
    intro m bids
    rw [hsome]
    constructor
    · intro h
      obtain ⟨x, hx⟩ := List.exists_mem_of_ne_nil _ h
      simp only [non_convex_pairs, List.mem_flatMap, List.mem_map, List.mem_filter,
        decide_eq_true_eq] at hx
      obtain ⟨t, ht, k, ⟨hk, hcond⟩, rfl⟩ := hx
      exact ⟨t, ht, k, hk, hcond⟩
    · rintro ⟨t, ht, k, hk, hcond⟩
      apply List.ne_nil_of_mem (a := (t, k))
      simp only [non_convex_pairs, List.mem_flatMap, List.mem_map, List.mem_filter,
        decide_eq_true_eq]
      exact ⟨t, ht, k, ⟨hk, hcond⟩, rfl⟩
  refine ⟨ha, ?_, fun m bids h => ?_⟩
  · refine (ha storeAfterFirstBid [⟨0, 0, Sector.RC, 10, 5, -1⟩]).mpr
      ⟨⟨0, 0, Sector.RC, 10, 5, -1⟩, by simp, 1, ?_, ?_⟩
    · have hl : storeAfterFirstBid.DR_BID_LIST = [1] := rfl
      rw [hl]
      simp
    · have e1 : storeAfterFirstBid.dr_bid_benefit 1 0 0 Sector.RC = 0 := rfl
      have e2 : storeAfterFirstBid.dr_bid 1 0 0 Sector.RC = 5 := rfl
      rw [e1, e2]
      norm_num
  · rw [hsome] at h
    unfold add_bids
    simp [h]

/-- Concrete application of the frame part of the rejection theorem: the
raising second call leaves the store unchanged. -/
theorem add_bids_nonconvex_reject_witness :
    (add_bids storeAfterFirstBid [⟨0, 0, Sector.RC, 10, 5, -1⟩]).1
      = storeAfterFirstBid :=
  add_bids_nonconvex_reject.2.2 storeAfterFirstBid
    [⟨0, 0, Sector.RC, 10, 5, -1⟩] add_bids_nonconvex_reject.2.1

/-- Sum of a difference of mapped lists, used to reorganize revenue sums. -/
lemma sum_map_sub_congr (l : List TS) (f g h : TS → ℚ)
    (hfgh : ∀ ts, f ts - g ts = h ts) :
    (l.map f).sum - (l.map g).sum = (l.map h).sum := by
  induction l with
  | nil => simp
  | cons a t ih =>
    simp only [List.map_cons, List.sum_cons]
    rw [← hfgh a, ← ih]
    ring

/-- Embedding of revenue_imbalance from
gas_iterative_demand_response_2sectors.py.  demBid is the quantity component
of the pluggable demand_module.bid; every price list of the source holds one
price per timeseries, so list entries appear as scalars.  The four
accumulators of the source loop appear as list sums. -/
def revenue_imbalance (demBid : Zone → TS → ℚ → Sector → ℚ)
    (flat_price_rc : ℚ) (gas_zone : Zone) (tsInPeriod : List TS)
    (ts_scale_to_year : TS → ℚ)
    (recoverable_cost : Zone → TS → Sector → ℚ) : ℚ :=
  let flat_price_revenue_rc := (tsInPeriod.map (fun ts =>
    flat_price_rc *
      (demBid gas_zone ts flat_price_rc Sector.RC * ts_scale_to_year ts))).sum
  let marginal_price_revenue_ei := (tsInPeriod.map (fun ts =>
    recoverable_cost gas_zone ts Sector.EI
      * demBid gas_zone ts (recoverable_cost gas_zone ts Sector.EI) Sector.EI
      * ts_scale_to_year ts)).sum
  let dynamic_revenue_rc := (tsInPeriod.map (fun ts =>
    recoverable_cost gas_zone ts Sector.RC
      * demBid gas_zone ts flat_price_rc Sector.RC * ts_scale_to_year ts)).sum
  let dynamic_revenue_ei := (tsInPeriod.map (fun ts =>
    recoverable_cost gas_zone ts Sector.EI
      * demBid gas_zone ts (recoverable_cost gas_zone ts Sector.EI) Sector.EI
      * ts_scale_to_year ts)).sum
  let total_revenue := flat_price_revenue_rc + marginal_price_revenue_ei
  let dynamic_total_revenue := dynamic_revenue_rc + dynamic_revenue_ei
  dynamic_total_revenue - total_revenue

/-- Modelled from the spec words of claim C2, for refinement comparison only:
the imbalance whose first sum evaluates the RC demand at the recoverable cost
of each timeseries instead of at the candidate flat price. -/
def revenue_imbalance_spec (demBid : Zone → TS → ℚ → Sector → ℚ)
    (flat_price_rc : ℚ) (gas_zone : Zone) (tsInPeriod : List TS)
    (ts_scale_to_year : TS → ℚ)
    (recoverable_cost : Zone → TS → Sector → ℚ) : ℚ :=
  (tsInPeriod.map (fun ts =>
    recoverable_cost gas_zone ts Sector.RC
      * demBid gas_zone ts (recoverable_cost gas_zone ts Sector.RC) Sector.RC
      * ts_scale_to_year ts)).sum
  - flat_price_rc * (tsInPeriod.map (fun ts =>
      demBid gas_zone ts flat_price_rc Sector.RC * ts_scale_to_year ts)).sum

/-- A concrete demand plugin with quantity equal to the offered price. -/
def demLinear : Zone → TS → ℚ → Sector → ℚ := fun _ _ p _ => p

/-- A concrete recoverable-cost table, constant 5. -/
def rcConst5 : Zone → TS → Sector → ℚ := fun _ _ _ => 5

/-- Counterexample to claim C2 as stated: at flat price 3, one timeseries,
scale 1, recoverable cost 5 and demand law q = p, the code computes 6 while
the formula of the claim, whose first sum evaluates RC demand at the
recoverable cost of the timeseries, gives 16. -/
theorem revenue_imbalance_spec_counterexample :
    revenue_imbalance demLinear 3 0 [0] (fun _ => 1) rcConst5 = 6
    ∧ revenue_imbalance_spec demLinear 3 0 [0] (fun _ => 1) rcConst5 = 16
    ∧ revenue_imbalance demLinear 3 0 [0] (fun _ => 1) rcConst5 ≠
        revenue_imbalance_spec demLinear 3 0 [0] (fun _ => 1) rcConst5 := by
  refine ⟨?_, ?_, ?_⟩ <;>
    norm_num [revenue_imbalance, revenue_imbalance_spec, demLinear, rcConst5]

/-- Claim C2 amended: the scalar function solved by the flat-price finder
equals the recoverable-cost revenue minus the flat-price revenue, with the RC
demand of both sums evaluated at the candidate flat price P. -/
theorem revenue_imbalance_amended (demBid : Zone → TS → ℚ → Sector → ℚ)
    (P : ℚ) (z : Zone) (l : List TS) (s : TS → ℚ)
    (rc : Zone → TS → Sector → ℚ) :
    revenue_imbalance demBid P z l s rc =
      (l.map (fun ts => rc z ts Sector.RC * demBid z ts P Sector.RC * s ts)).sum
        - P * (l.map (fun ts => demBid z ts P Sector.RC * s ts)).sum := by
  simp only [revenue_imbalance]
  rw [List.sum_map_mul_left]
  ring

/-- Claim C10: revenue_imbalance is independent of the EI sector, whose
revenue and dynamic-revenue terms cancel exactly, leaving the sum over the
timeseries of the period of (recoverable cost RC minus P) times the RC demand
at P times the scale factor. -/
theorem revenue_imbalance_ei_cancels (demBid : Zone → TS → ℚ → Sector → ℚ)
    (P : ℚ) (z : Zone) (l : List TS) (s : TS → ℚ)
    (rc : Zone → TS → Sector → ℚ) :
    revenue_imbalance demBid P z l s rc =
      (l.map (fun ts =>
        (rc z ts Sector.RC - P) * demBid z ts P Sector.RC * s ts)).sum := by
  have h : revenue_imbalance demBid P z l s rc =
      (l.map (fun ts => rc z ts Sector.RC * demBid z ts P Sector.RC * s ts)).sum
        - (l.map (fun ts => P * (demBid z ts P Sector.RC * s ts))).sum := by
    simp only [revenue_imbalance]
    ring
  rw [h]
  exact sum_map_sub_congr l _ _ _ (fun ts => by ring)

/-- Embedding of find_flat_prices: newton is the scipy.optimize.newton
oracle, gasDem is gas_demand of the current model state, demBid the plugin
bid function passed on to revenue_imbalance.  The returned map gives, for
sector RC, the flat price of the period of the timeseries and, for sector EI,
the recoverable cost of the timeseries. -/
def find_flat_prices (newton : (ℚ → ℚ) → ℚ → ℚ)
    (demBid : Zone → TS → ℚ → Sector → ℚ)
    (gasDem : Zone → TS → Sector → ℚ)
    (recoverable_cost : Zone → TS → Sector → ℚ)
    (ts_scale_to_year : TS → ℚ) (ts_period : TS → Period)
    (tsInPeriod : Period → List TS)
    (revenue_neutral : Bool) (z : Zone) (ts : TS) : Sector → ℚ :=
  fun s =>
    match s with
    | Sector.RC =>
        let l := tsInPeriod (ts_period ts)
        let rc_price_guess :=
          (l.map (fun t2 => recoverable_cost z t2 Sector.RC
              * gasDem z t2 Sector.RC * ts_scale_to_year t2)).sum
          / (l.map (fun t2 => gasDem z t2 Sector.RC * ts_scale_to_year t2)).sum
        if revenue_neutral then
          newton
            (fun P =>
              revenue_imbalance demBid P z l ts_scale_to_year recoverable_cost)
            rc_price_guess
        else rc_price_guess
    | Sector.EI => recoverable_cost z ts Sector.EI

/-- Claim C8: the initial guess passed to the newton root-finder is the
demand-weighted average of the per-timeseries RC recoverable costs, and with
revenue_neutral false no root-finding happens and exactly that guess is
returned as the RC flat price. -/
theorem find_flat_prices_seed_and_skip (newton : (ℚ → ℚ) → ℚ → ℚ)
    (demBid : Zone → TS → ℚ → Sector → ℚ)
    (gasDem : Zone → TS → Sector → ℚ)
    (rc : Zone → TS → Sector → ℚ) (s : TS → ℚ)
    (ts_period : TS → Period) (tip : Period → List TS)
    (z : Zone) (ts : TS) :
    find_flat_prices newton demBid gasDem rc s ts_period tip false z ts
        Sector.RC =
      ((tip (ts_period ts)).map (fun t2 =>
          rc z t2 Sector.RC * gasDem z t2 Sector.RC * s t2)).sum
        / ((tip (ts_period ts)).map (fun t2 =>
            gasDem z t2 Sector.RC * s t2)).sum
    ∧ find_flat_prices newton demBid gasDem rc s ts_period tip true z ts
        Sector.RC =
      newton
        (fun P => revenue_imbalance demBid P z (tip (ts_period ts)) s rc)
        (((tip (ts_period ts)).map (fun t2 =>
            rc z t2 Sector.RC * gasDem z t2 Sector.RC * s t2)).sum
          / ((tip (ts_period ts)).map (fun t2 =>
              gasDem z t2 Sector.RC * s t2)).sum) :=
  ⟨rfl, rfl⟩

/-- Model state at the convergence check of pre_iterate, after update_demand
has appended the newest bid: index sets, scaling data, the stored previous
recoverable costs and demands, the bid data and the current bid weights. -/
structure IterState where
  iteration_number : ℕ
  GAS_ZONES : List Zone
  TIMESERIES : List TS
  DEMAND_SECTORS : List Sector
  TIMEPOINTS : List ℕ
  tp_ts : ℕ → TS
  ts_period : TS → Period
  ts_scale_to_year : TS → ℚ
  ts_duration_hrs : TS → ℚ
  bring_annual_costs_to_base_year : Period → ℚ
  bring_timepoint_costs_to_base_year : ℕ → ℚ
  prev_recoverable_cost : Zone → TS → Sector → ℚ
  prev_demand : Zone → TS → Sector → ℚ
  DR_BID_LIST : List ℕ
  dr_bid : ℕ → Zone → TS → Sector → ℚ
  dr_bid_benefit : ℕ → Zone → TS → Sector → ℚ
  DRBidWeight : ℕ → Zone → TS → Sector → ℚ

/-- Embedding of the DR_Welfare_Cost expression (lines 198-208): minus the
weighted bid benefits of the timeseries of the timepoint, divided by the
duration of the timeseries. -/
def DR_Welfare_Cost (m : IterState) (tp : ℕ) : ℚ :=
  (-1) * ((m.DR_BID_LIST.map (fun b =>
    (m.GAS_ZONES.map (fun z =>
      (m.DEMAND_SECTORS.map (fun ds =>
        m.DRBidWeight b z (m.tp_ts tp) ds
          * m.dr_bid_benefit b z (m.tp_ts tp) ds)).sum)).sum)).sum)
    / m.ts_duration_hrs (m.tp_ts tp)

/-- prev_direct_cost of pre_iterate: previous recoverable cost times previous
demand, annualized and brought to the base year. -/
def prev_direct_cost (m : IterState) : ℚ :=
  (m.GAS_ZONES.map (fun z =>
    (m.TIMESERIES.map (fun ts =>
      (m.DEMAND_SECTORS.map (fun ds =>
        m.prev_recoverable_cost z ts ds * m.prev_demand z ts ds
          * m.ts_scale_to_year ts
          * m.bring_annual_costs_to_base_year (m.ts_period ts))).sum)).sum)).sum

/-- prev_welfare_cost of pre_iterate: welfare cost per timepoint brought to
the base year. -/
def prev_welfare_cost (m : IterState) : ℚ :=
  (m.TIMEPOINTS.map (fun tp =>
    DR_Welfare_Cost m tp * m.bring_timepoint_costs_to_base_year tp)).sum

/-- prev_cost of pre_iterate. -/
def prev_cost (m : IterState) : ℚ := prev_direct_cost m + prev_welfare_cost m

/-- best_direct_cost of pre_iterate: the quantities of the newest bid
(DR_BID_LIST.last) re-priced at the previous recoverable costs. -/
def best_direct_cost (m : IterState) : ℚ :=
  let b := m.DR_BID_LIST.getLastD 0
  (m.GAS_ZONES.map (fun z =>
    (m.TIMESERIES.map (fun ts =>
      (m.DEMAND_SECTORS.map (fun ds =>
        m.prev_recoverable_cost z ts ds * m.dr_bid b z ts ds
          * m.ts_scale_to_year ts
          * m.bring_annual_costs_to_base_year (m.ts_period ts))).sum)).sum)).sum

/-- best_bid_benefit of pre_iterate: minus the benefit of the newest bid,
annualized and brought to the base year. -/
def best_bid_benefit (m : IterState) : ℚ :=
  let b := m.DR_BID_LIST.getLastD 0
  (m.TIMESERIES.map (fun ts =>
    -((m.DEMAND_SECTORS.map (fun ds =>
        (m.GAS_ZONES.map (fun z => m.dr_bid_benefit b z ts ds)).sum)).sum)
      * m.ts_scale_to_year ts
      * m.bring_annual_costs_to_base_year (m.ts_period ts))).sum

/-- best_cost of pre_iterate, the reported lower bound. -/
def best_cost (m : IterState) : ℚ := best_direct_cost m + best_bid_benefit m

/-- The convergence decision returned by pre_iterate (lines 324-327). -/
def pre_iterate_converged (m : IterState) : Bool :=
  decide (0 < m.iteration_number)
    && decide (|prev_cost m - best_cost m| / |prev_direct_cost m| ≤ 1 / 10000)

/-- Claim C4: pre_iterate reports convergence exactly when the iteration
number is at least 1 and the absolute gap between the previous realized cost
(direct plus welfare) and the lower bound from the newest bid, divided by the
absolute previous direct cost, is at most 1e-4; at iteration 0 it never
reports convergence. -/
theorem pre_iterate_convergence_test :
    (∀ m : IterState,
      pre_iterate_converged m = true ↔
        (1 ≤ m.iteration_number ∧
          |(prev_direct_cost m + prev_welfare_cost m)
              - (best_direct_cost m + best_bid_benefit m)|
            / |prev_direct_cost m| ≤ 1 / 10000))
    ∧ (∀ m : IterState,
        m.iteration_number = 0 → pre_iterate_converged m = false) := by
  constructor
  · intro m
    simp only [pre_iterate_converged, Bool.and_eq_true, decide_eq_true_eq,
      prev_cost, best_cost]
    exact Iff.rfl
  · intro m h
    simp [pre_iterate_converged, h]

/-- A concrete iteration-0 state. -/
def iterStateZero : IterState :=
  { iteration_number := 0
    GAS_ZONES := [0]
    TIMESERIES := [0]
    DEMAND_SECTORS := [Sector.EI, Sector.RC]
    TIMEPOINTS := [0]
    tp_ts := fun _ => 0
    ts_period := fun _ => 0
    ts_scale_to_year := fun _ => 1
    ts_duration_hrs := fun _ => 1
    bring_annual_costs_to_base_year := fun _ => 1
    bring_timepoint_costs_to_base_year := fun _ => 1
    prev_recoverable_cost := fun _ _ _ => 1
    prev_demand := fun _ _ _ => 1
    DR_BID_LIST := [1]
    dr_bid := fun _ _ _ _ => 0
    dr_bid_benefit := fun _ _ _ _ => -3
    DRBidWeight := fun _ _ _ _ => 0 }

/-- Concrete application of the convergence test: at iteration 0 the check
reports no convergence. -/
theorem pre_iterate_convergence_test_witness :
    pre_iterate_converged iterStateZero = false :=
  pre_iterate_convergence_test.2 iterStateZero rfl

/-- Outcome of the lower-bound comparison inside pre_iterate: the source
prints a warning when the previous cost falls below the lower bound and falls
through; no raise exists on this path (and no strict-mode option exists in
the module), so the result is always ok, carrying the warning flag and the
convergence decision. -/
def pre_iterate_check (m : IterState) : Except String (Bool × Bool) :=
  if 0 < m.iteration_number then
    Except.ok (decide (prev_cost m < best_cost m), pre_iterate_converged m)
  else Except.ok (false, pre_iterate_converged m)

/-- Claim C9: when the realized previous cost falls below the reported lower
bound, pre_iterate warns and the iteration continues without raising; the
convergence decision is computed as usual. -/
theorem lower_bound_violation_nonfatal :
    ∀ m : IterState, 1 ≤ m.iteration_number → prev_cost m < best_cost m →
      pre_iterate_check m = Except.ok (true, pre_iterate_converged m) := by
  intro m h1 h2
  have h0 : 0 < m.iteration_number := h1
  unfold pre_iterate_check
  rw [if_pos h0]
  simp [h2]

/-- A concrete iteration-1 state whose previous cost 2 lies below its lower
bound 6. -/
def iterStateOne : IterState :=
  { iterStateZero with iteration_number := 1 }

/-- Concrete application of the non-fatal lower-bound warning. -/
theorem lower_bound_violation_nonfatal_witness :
    pre_iterate_check iterStateOne
      = Except.ok (true, pre_iterate_converged iterStateOne) :=
  lower_bound_violation_nonfatal iterStateOne (by decide)
    (by norm_num [prev_cost, prev_direct_cost, prev_welfare_cost,
      DR_Welfare_Cost, best_cost, best_direct_cost, best_bid_benefit,
      iterStateOne, iterStateZero])

/-- Sum of the weights of all bids for one (zone, timeseries, sector). -/
def sum_weights (DR_BID_LIST : List ℕ) (w : ℕ → Zone → TS → Sector → ℚ)
    (z : Zone) (ts : TS) (ds : Sector) : ℚ :=
  (DR_BID_LIST.map (fun b => w b z ts ds)).sum

/-- Embedding of the DR_Convex_Bid_Weight constraint (lines 143-150):
Constraint.Skip, modelled as True, when the bid list is empty, otherwise the
weights over all bids sum to one. -/
def DR_Convex_Bid_Weight (DR_BID_LIST : List ℕ)
    (w : ℕ → Zone → TS → Sector → ℚ) (z : Zone) (ts : TS) (ds : Sector) :
    Prop :=
  if DR_BID_LIST = [] then True else sum_weights DR_BID_LIST w z ts ds = 1

/-- Claim C5: under the variable domain (weights nonnegative, as declared by
within NonNegativeReals) and the simplex constraint for every index, every
feasible assignment gives, for each (zone, timeseries, sector) with at least
one bid, weight sum exactly one and every individual weight inside the unit
interval; with an empty bid list the constraint is skipped. -/
theorem DRBidWeight_simplex (L : List ℕ) (w : ℕ → Zone → TS → Sector → ℚ)
    (hdom : ∀ b z ts ds, 0 ≤ w b z ts ds)
    (hcon : ∀ z ts ds, DR_Convex_Bid_Weight L w z ts ds) :
    (∀ z ts ds, L ≠ [] → sum_weights L w z ts ds = 1)
    ∧ (∀ b z ts ds, b ∈ L → 0 ≤ w b z ts ds ∧ w b z ts ds ≤ 1)
    ∧ (L = [] → ∀ z ts ds, DR_Convex_Bid_Weight L w z ts ds) := by
  have hsum : ∀ z ts ds, L ≠ [] → sum_weights L w z ts ds = 1 := by
    intro z ts ds hL
    have := hcon z ts ds
    rwa [DR_Convex_Bid_Weight, if_neg hL] at this
  refine ⟨hsum, fun b z ts ds hb => ⟨hdom b z ts ds, ?_⟩, fun _ z ts ds => hcon z ts ds⟩
  have hL : L ≠ [] := List.ne_nil_of_mem hb
  have hle : w b z ts ds ≤ (L.map (fun b2 => w b2 z ts ds)).sum := by
    refine List.single_le_sum ?_ _ (List.mem_map_of_mem _ hb)
    intro q hq
    obtain ⟨b2, _, rfl⟩ := List.mem_map.mp hq
    exact hdom b2 z ts ds
  calc w b z ts ds ≤ (L.map (fun b2 => w b2 z ts ds)).sum := hle
  _ = 1 := hsum z ts ds hL

/-- A concrete feasible weight assignment for bid list [1, 2]: all weight on
bid 1. -/
def wAllOnBidOne : ℕ → Zone → TS → Sector → ℚ :=
  fun b _ _ _ => if b = 1 then 1 else 0

/-- Concrete application of the simplex theorem at bid list [1, 2]. -/
theorem DRBidWeight_simplex_witness :
    sum_weights [1, 2] wAllOnBidOne 0 0 Sector.RC = 1
    ∧ (0 ≤ wAllOnBidOne 2 0 0 Sector.RC ∧ wAllOnBidOne 2 0 0 Sector.RC ≤ 1) :=
  have hdom : ∀ b z ts ds, 0 ≤ wAllOnBidOne b z ts ds := by
    intro b z ts ds
    unfold wAllOnBidOne
    by_cases hb : b = 1 <;> simp [hb]
  have hcon : ∀ z ts ds, DR_Convex_Bid_Weight [1, 2] wAllOnBidOne z ts ds := by
    intro z ts ds
    rw [DR_Convex_Bid_Weight, if_neg (by simp)]
    norm_num [sum_weights, wAllOnBidOne]
  ⟨(DRBidWeight_simplex [1, 2] wAllOnBidOne hdom hcon).1 0 0 Sector.RC (by simp),
   (DRBidWeight_simplex [1, 2] wAllOnBidOne hdom hcon).2.1 2 0 0 Sector.RC (by simp)⟩

/-- Index data for the flat-pricing constraint: the period of a timeseries
and the first timeseries of a period, i.e. m.tp_ts applied to the first
timepoint of TPS_IN_PERIOD of the period. -/
structure FlatIdx where
  ts_period : TS → Period
  first_ts : Period → TS

/-- Embedding of the DR_Flat_Bid_Weight constraint (lines 157-167), created
only under dr_flat_pricing: Constraint.Skip, modelled as True, for sector EI;
for sector RC an explicit equality of the weight with the weight at the
first timeseries of the period of ts. -/
def DR_Flat_Bid_Weight (fi : FlatIdx) (w : ℕ → Zone → TS → Sector → ℚ)
    (b : ℕ) (z : Zone) (ts : TS) (ds : Sector) : Prop :=
  match ds with
  | Sector.EI => True
  | Sector.RC =>
      w b z ts Sector.RC = w b z (fi.first_ts (fi.ts_period ts)) Sector.RC

/-- Feasibility for the weight constraints of the model with flat pricing
enabled: the nonnegative variable domain, the simplex constraint and the
flat-pricing constraint, over their index sets. -/
def flat_model_feasible (L : List ℕ) (fi : FlatIdx)
    (w : ℕ → Zone → TS → Sector → ℚ) : Prop :=
  (∀ b z ts ds, 0 ≤ w b z ts ds)
  ∧ (∀ z ts ds, DR_Convex_Bid_Weight L w z ts ds)
  ∧ (∀ b ∈ L, ∀ (z : Zone) (ts : TS) (ds : Sector),
      DR_Flat_Bid_Weight fi w b z ts ds)

/-- A concrete index structure: every timeseries belongs to period 0, whose
first timeseries is 0. -/
def flatIdxZero : FlatIdx := ⟨fun _ => 0, fun _ => 0⟩

/-- A concrete feasible assignment for bids [1, 2] whose EI weights differ
across timeseries of the same period while RC weights are flat. -/
def wFlatEx : ℕ → Zone → TS → Sector → ℚ := fun b _ ts ds =>
  match ds with
  | Sector.EI => if (ts = 1 ∧ b = 2) ∨ (ts ≠ 1 ∧ b = 1) then 1 else 0
  | Sector.RC => if b = 1 then 1 else 0

/-- The concrete assignment satisfies all weight constraints. -/
lemma wFlatEx_feasible : flat_model_feasible [1, 2] flatIdxZero wFlatEx := by
  refine ⟨fun b z ts ds => ?_, fun z ts ds => ?_, fun b hb z ts ds => ?_⟩
  · cases ds
    · simp only [wFlatEx]
      split <;> norm_num
    · simp only [wFlatEx]
      split <;> norm_num
  · rw [DR_Convex_Bid_Weight, if_neg (by simp)]
    cases ds
    · by_cases h1 : ts = 1 <;> simp [sum_weights, wFlatEx, h1]
    · simp [sum_weights, wFlatEx]
  · cases ds
    · trivial
    · rfl

/-- Claim C6: in every feasible assignment under flat pricing, the RC weight
of every bid at every timeseries equals its RC weight at the first
timeseries of the period of that timeseries, through the explicit
DR_Flat_Bid_Weight constraint; and no such restriction binds sector EI: a
fully feasible assignment exists whose EI weights differ across two
timeseries of one period. -/
theorem flat_pricing_weight_equality :
    (∀ (L : List ℕ) (fi : FlatIdx) (w : ℕ → Zone → TS → Sector → ℚ),
      flat_model_feasible L fi w →
        ∀ b ∈ L, ∀ (z : Zone) (ts : TS),
          w b z ts Sector.RC = w b z (fi.first_ts (fi.ts_period ts)) Sector.RC)
    ∧ (∃ w : ℕ → Zone → TS → Sector → ℚ,
        flat_model_feasible [1, 2] flatIdxZero w ∧
          w 1 0 1 Sector.EI ≠
            w 1 0 (flatIdxZero.first_ts (flatIdxZero.ts_period 1)) Sector.EI) := by
  constructor
  · intro L fi w hf b hb z ts
    exact hf.2.2 b hb z ts Sector.RC
  · refine ⟨wFlatEx, wFlatEx_feasible, ?_⟩
    norm_num [wFlatEx, flatIdxZero]

/-- Concrete application of the flat-pricing equality at timeseries 5. -/
theorem flat_pricing_weight_equality_witness :
    wFlatEx 1 0 5 Sector.RC
      = wFlatEx 1 0 (flatIdxZero.first_ts (flatIdxZero.ts_period 5)) Sector.RC :=
  flat_pricing_weight_equality.1 [1, 2] flatIdxZero wFlatEx wFlatEx_feasible
    1 (by simp) 0 5

/-- Constraint objects of Zone_Gas_Balance, identified by a rebuild version
together with the (zone, timeseries) key; a reconstruct replaces every
object by a fresh one, modelled by bumping the version.  dual maps a
constraint object to its attached dual value, none when absent (a lookup of
an absent key raises KeyError in the source). -/
structure DualState where
  ver : ℕ
  dual : ℕ → Zone → TS → Option ℚ

/-- A plain reconstruct of the balance constraint (clear, construct): the
constraint objects are replaced and the dual suffix is untouched. -/
def reconstruct_balance (st : DualState) : DualState :=
  { st with ver := st.ver + 1 }

/-- gas_marginal_cost (lines 484-489) reads the dual attached to the current
balance constraint object and scales it; none models the KeyError raised
when the dual map holds no entry for that object. -/
def gas_marginal_cost (bring scale : ℚ) (st : DualState) (z : Zone)
    (ts : TS) : Option ℚ :=
  (st.dual st.ver z ts).map (fun d => d / (bring * scale))

/-- The Zone_Gas_Balance rebuild that add_bids performs (line 774): the
plain reconstruct, with no transfer of dual values. -/
def add_bids_rebuild (st : DualState) : DualState := reconstruct_balance st

/-- Embedding of reconstruct_gas_balance (lines 783-793): plain reconstruct,
then, from iteration 1 on, the dual entry of every old constraint object is
popped and re-keyed to the new object of the same (zone, timeseries).  This
function is never called inside the module. -/
def reconstruct_gas_balance (iteration_number : ℕ) (keys : List (Zone × TS))
    (st : DualState) : DualState :=
  let old_ver := st.ver
  let st2 := reconstruct_balance st
  if 0 < iteration_number then
    { st2 with
      dual := fun v z ts =>
        if v = st2.ver ∧ (z, ts) ∈ keys then st.dual old_ver z ts
        else if v = old_ver ∧ (z, ts) ∈ keys then none
        else st2.dual v z ts }
  else st2

/-- A dual state with the value 7 attached to the current balance constraint
of zone 0, timeseries 0. -/
def dualStateEx : DualState :=
  ⟨0, fun v z ts => if v = 0 ∧ z = 0 ∧ ts = 0 then some 7 else none⟩

/-- Claim C7 evaluated on the code at a concrete input: before the rebuild
the marginal cost of (zone 0, timeseries 0) reads 7; after the rebuild that
add_bids performs the lookup finds no dual value (KeyError), so the claimed
carry-over does not happen there; the dual-preserving
reconstruct_gas_balance, which nothing in the module calls, would keep the
value readable. -/
theorem add_bids_rebuild_loses_duals :
    gas_marginal_cost 1 1 dualStateEx 0 0 = some 7
    ∧ gas_marginal_cost 1 1 (add_bids_rebuild dualStateEx) 0 0 = none
    ∧ gas_marginal_cost 1 1
        (reconstruct_gas_balance 1 [(0, 0)] dualStateEx) 0 0 = some 7 := by
  refine ⟨?_, ?_, ?_⟩ <;>
    norm_num [gas_marginal_cost, add_bids_rebuild, reconstruct_balance,
      reconstruct_gas_balance, dualStateEx]
